import Mathlib

/-!
Verification development for the `proxychannel` intercepting HTTP/HTTPS proxy core.

The Go source (package `proxychannel`: the request handler file and
`writerwithlength.go`) is shallowly embedded below.  Pure helpers
(`strings.Split`, `strings.TrimSpace`, `strings.EqualFold`,
`textproto.CanonicalMIMEHeaderKey`, the `http.Header` map operations, the
header-sanitisation functions, base64) are translated as executable Lean
functions.  The stateful request pipeline (`ServeHTTP`, `DoRequest`, the five
forwarders, `transfer`, the close-once guards) is translated as pure state
passing over an explicit `Ctx` record, with every external I/O outcome and
every delegate decision supplied by an explicit `Oracle` record, so each
control path of the source corresponds to one evaluation of the model.

Strings are modelled at the level of Unicode code points; header names and
values relevant here are ASCII, and the ASCII fast paths of
`strings.EqualFold` and `unicode.IsSpace` are translated exactly (the
non-ASCII simple-folding cases of `EqualFold` are outside the model).
-/

namespace Proxychannel

/-! ## Go string helpers (`strings`, `unicode`, `net/textproto`) -/

/-- Model of `unicode.IsSpace` on a code point: the White_Space property table used by
`strings.TrimSpace`. -/
def isGoSpace (c : Char) : Bool :=
  let n := c.toNat
  (9 ≤ n && n ≤ 13) || n = 32 || n = 0x85 || n = 0xA0 || n = 0x1680 ||
  (0x2000 ≤ n && n ≤ 0x200A) || n = 0x2028 || n = 0x2029 || n = 0x202F ||
  n = 0x205F || n = 0x3000

/-- Model of `strings.TrimSpace`: drop leading and trailing white space. -/
def goTrim (s : String) : String :=
  String.mk (((s.data.dropWhile isGoSpace).reverse.dropWhile isGoSpace).reverse)

/-- ASCII lower-casing of one character (`c + 32` for `A`..`Z`). -/
def asciiLowerChar (c : Char) : Char :=
  if 65 ≤ c.toNat && c.toNat ≤ 90 then Char.ofNat (c.toNat + 32) else c

/-- ASCII upper-casing of one character (`c - 32` for `a`..`z`). -/
def asciiUpperChar (c : Char) : Char :=
  if 97 ≤ c.toNat && c.toNat ≤ 122 then Char.ofNat (c.toNat - 32) else c

/-- Model of `strings.EqualFold`, restricted to its ASCII fast path: case-insensitive
equality obtained by lower-casing both sides character by character. -/
def goEqualFold (a b : String) : Bool :=
  a.data.map asciiLowerChar == b.data.map asciiLowerChar

/-- Splitting accumulator: `splitCommaAux cs cur` splits `cs` at each comma,
with `cur` the (reversed) pending segment. -/
def splitCommaAux : List Char → List Char → List String
  | [], cur => [String.mk cur.reverse]
  | c :: rest, cur =>
    if c = ',' then String.mk cur.reverse :: splitCommaAux rest []
    else splitCommaAux rest (c :: cur)

/-- Model of `strings.Split(s, ",")` for the one-character separator: the empty string
gives `[""]`, and each comma starts a new segment. -/
def goSplitComma (s : String) : List String :=
  splitCommaAux s.data []

/-- Model of `net/textproto.validHeaderFieldByte`: RFC 7230 token characters
(digits, letters, and the bytes `! # $ % & ' * + - . ^ _` 0x60 `| ~`). -/
def validHeaderFieldByte (n : Nat) : Bool :=
  (48 ≤ n && n ≤ 57) || (65 ≤ n && n ≤ 90) || (97 ≤ n && n ≤ 122) ||
  n = 33 || (35 ≤ n && n ≤ 39) || n = 42 || n = 43 || n = 45 || n = 46 ||
  n = 94 || n = 95 || n = 96 || n = 124 || n = 126

/-- The case-mapping loop of `textproto.canonicalMIMEHeaderKey`: upper-case a
letter at the start and after each hyphen, lower-case the rest. -/
def canonCase : Bool → List Char → List Char
  | _, [] => []
  | up, c :: rest =>
    let c2 := if up then asciiUpperChar c else asciiLowerChar c
    c2 :: canonCase (c2 == '-') rest

/-- Model of `textproto.CanonicalMIMEHeaderKey`: if any byte is not a valid header
field byte the key is returned unchanged, otherwise it is canonicalised. -/
def canonicalKey (s : String) : String :=
  if s.data.all (fun c => validHeaderFieldByte c.toNat) then
    String.mk (canonCase true s.data)
  else s

/-! ## `http.Header`

`http.Header` is `map[string][]string` keyed by canonical MIME header keys.
It is modelled as an association list; Go map keys are unique, and every
operation below is the faithful image of the corresponding Go map operation
under that reading (`del` removes every entry with the key, which coincides
with map deletion when keys are unique). -/

structure Header where
  entries : List (String × List String)
deriving DecidableEq

/-- Raw map indexing `h[k]` (no canonicalisation), absent key gives no entry. -/
def Header.lookup (h : Header) (k : String) : Option (List String) :=
  (h.entries.find? (fun e => e.1 == k)).map (fun e => e.2)

/-- Raw map indexing `h[k]` as used by `range header[name]`: absent key
iterates over nothing. -/
def Header.rawVals (h : Header) (k : String) : List String :=
  (h.lookup k).getD []

/-- Model of `http.Header.Get`: canonicalise the key, return the first value, or the
empty string when the key is absent or has no values. -/
def Header.get (h : Header) (k : String) : String :=
  match h.lookup (canonicalKey k) with
  | some (v :: _) => v
  | _ => ""

/-- Model of `http.Header.Del`: delete the entry under the canonicalised key. -/
def Header.del (h : Header) (k : String) : Header :=
  ⟨h.entries.filter (fun e => !(e.1 == canonicalKey k))⟩

/-! ## Requests and the header predicates of the source -/

/-- The parts of `*http.Request` that the embedded pipeline reads or writes:
`Method`, `URL.Scheme`, `URL.Host`, `Host`, `RemoteAddr` and `Header`. -/
structure Request where
  method : String
  urlScheme : String
  urlHost : String
  host : String
  remoteAddr : String
  header : Header
deriving DecidableEq

/-- Model of `headerContains(header, name, value)`: some comma-separated, trimmed token
of some value of `header[name]` equals `value` case-insensitively. -/
def headerContains (h : Header) (name value : String) : Bool :=
  (h.rawVals name).any (fun v =>
    (goSplitComma v).any (fun s => goEqualFold value (goTrim s)))

/-- Model of `isWebSocketRequest`. -/
def isWebSocketRequest (r : Request) : Bool :=
  headerContains r.header "Connection" "upgrade" &&
  headerContains r.header "Upgrade" "websocket"

/-- Model of `hopHeaders` (the RFC 7230 hop-by-hop set of the source). -/
def hopHeaders : List String :=
  ["Connection", "Proxy-Connection", "Keep-Alive", "Proxy-Authenticate",
   "Proxy-Authorization", "Te", "Trailer", "Transfer-Encoding", "Upgrade"]

/-- Model of `removeConnectionHeaders`: if `Get("Connection")` is non-empty, delete
every header named by a non-empty trimmed comma token of that first value. -/
def removeConnectionHeaders (h : Header) : Header :=
  let c := h.get "Connection"
  if c ≠ "" then
    (goSplitComma c).foldl
      (fun h2 f => if goTrim f ≠ "" then h2.del (goTrim f) else h2) h
  else h

/-- Model of `removeMITMHeaders`: delete the `MITM` marker when `Get("MITM")` is
non-empty. -/
def removeMITMHeaders (h : Header) : Header :=
  if h.get "MITM" ≠ "" then h.del "MITM" else h

/-- The hop-by-hop loop of `DoRequest` on the outbound request: delete each
hop header whose `Get` value is non-empty. -/
def stripHopRequestHeaders (h : Header) : Header :=
  hopHeaders.foldl (fun h2 item => if h2.get item ≠ "" then h2.del item else h2) h

/-- Lines 180-186 of the handler file: the header of the cloned outbound
request after `removeMITMHeaders`, `removeConnectionHeaders` and the
hop-by-hop loop. -/
def sanitizeRequestHeader (h : Header) : Header :=
  stripHopRequestHeaders (removeConnectionHeaders (removeMITMHeaders h))

/-- Lines 256-261: the response-side stripping (`removeConnectionHeaders`
then an unconditional `Del` of every hop header). -/
def sanitizeResponseHeader (h : Header) : Header :=
  hopHeaders.foldl (fun h2 x => h2.del x) (removeConnectionHeaders h)

/-! ## The mode dispatcher (`ServeHTTP` lines 130-148) -/

inductive Handler
  | mitmWebsocket
  | mitmHTTPS
  | tunnel
  | plainWebsocket
  | plainHTTP
deriving DecidableEq

/-- The routing decision of `ServeHTTP`. -/
def dispatchM (req : Request) : Handler :=
  if req.method = "CONNECT" then
    if req.header.get "MITM" = "Enabled" then
      if isWebSocketRequest req then .mitmWebsocket else .mitmHTTPS
    else .tunnel
  else
    if isWebSocketRequest req then .plainWebsocket else .plainHTTP

/-! Spec-side wording of WebSocket detection, for the C1 refinement: the
`Connection` header contains the token `upgrade` and the `Upgrade` header
contains the token `websocket` (case-insensitive, comma-split, trimmed). -/

def SpecHeaderHasToken (h : Header) (name tok : String) : Prop :=
  ∃ v ∈ h.rawVals name, ∃ s ∈ goSplitComma v, goEqualFold tok (goTrim s) = true

def SpecIsWebSocketUpgrade (r : Request) : Prop :=
  SpecHeaderHasToken r.header "Connection" "upgrade" ∧
  SpecHeaderHasToken r.header "Upgrade" "websocket"

instance (h : Header) (name tok : String) : Decidable (SpecHeaderHasToken h name tok) := by
  unfold SpecHeaderHasToken
  infer_instance

instance (r : Request) : Decidable (SpecIsWebSocketUpgrade r) := by
  unfold SpecIsWebSocketUpgrade
  infer_instance

theorem isWebSocketRequest_iff_spec (r : Request) :
    isWebSocketRequest r = true ↔ SpecIsWebSocketUpgrade r := by
  unfold isWebSocketRequest SpecIsWebSocketUpgrade SpecHeaderHasToken headerContains
  simp [List.any_eq_true]

/-! ## Error kinds and the per-request context

The `Context` struct, its `SetContextErrType` / `SetContextErrorWithType`
methods and the error-kind constants are declared in a repository file that
is not in `src/` (only their uses are).  Modelled from the spec: §3 gives the
context fields (`Req`, `Hijack`, `MITM`, `ReqLength`, `RespLength`, `Closed`,
`abort`, `errType`), §7 the error-kind names, and `SetContextErrType` records
the kind on the context.  The delegate-scratch `Data` map is not needed by
any claim and is omitted; the `Lock` mutex is represented by the sequential
atomicity of the state-passing model. -/

inductive ErrType
  | ConnectFail
  | AuthFail
  | BeforeRequestFail
  | ParentProxyFail
  | BeforeResponseFail
  | HTTPDoRequestFail
  | HTTPWriteClientFail
  | HTTPSGenerateTLSConfigFail
  | HTTPSHijackClientConnFail
  | HTTPSWriteEstRespFail
  | HTTPSTLSClientConnHandshakeFail
  | HTTPSReadReqFromBufFail
  | HTTPSDoRequestFail
  | HTTPSWriteRespFail
  | TunnelHijackClientConnFail
  | TunnelDialRemoteServerFail
  | TunnelWriteEstRespFail
  | TunnelConnectRemoteFail
  | TunnelWriteConnFail
  | HTTPWebsocketDailFail
  | HTTPWebsocketHijackFail
  | HTTPWebsocketHandshakeFail
  | HTTPSWebsocketGenerateTLSConfigFail
  | HTTPSWebsocketHijackFail
  | HTTPSWebsocketWriteEstRespFail
  | HTTPSWebsocketTLSClientConnHandshakeFail
  | HTTPSWebsocketReadReqFromBufFail
  | HTTPSWebsocketDailFail
  | HTTPSWebsocketHandshakeFail
deriving DecidableEq

/-- Modelled from the spec: the per-request `Context` (§3). -/
structure Ctx where
  Req : Request
  Hijack : Bool := false
  MITM : Bool := false
  ReqLength : Int := 0
  RespLength : Int := 0
  Closed : Bool := false
  abort : Bool := false
  errType : Option ErrType := none
deriving DecidableEq

/-- Modelled from the spec: `ctx.SetContextErrType` / the error-recording
part of `ctx.SetContextErrorWithType` record the typed kind on the context. -/
def setErrType (c : Ctx) (e : ErrType) : Ctx :=
  { c with errType := some e }

/-! ## Close-once guards (`CloseResponseBody`, `CloseNetConn`)

Both take the context lock, return if `Closed` is already set, and otherwise
close the resource and set `Closed`.  The returned `Bool` reports whether a
close of the underlying resource was performed. -/

def CloseResponseBodyM (ctx : Ctx) : Ctx × Bool :=
  if ctx.Closed then (ctx, false) else ({ ctx with Closed := true }, true)

def CloseNetConnM (ctx : Ctx) : Ctx × Bool :=
  if ctx.Closed then (ctx, false) else ({ ctx with Closed := true }, true)

/-- Convenience: the context after a deferred `CloseNetConn`. -/
def closeNet (ctx : Ctx) : Ctx := (CloseNetConnM ctx).1

inductive CloseCall
  | respBody
  | netConn
deriving DecidableEq

def closeCallStep (ctx : Ctx) : CloseCall → Ctx × Bool
  | .respBody => CloseResponseBodyM ctx
  | .netConn => CloseNetConnM ctx

/-- A sequence of calls to the two guards (serialised by the context mutex),
counting how many closes of a terminal resource were performed. -/
def runCloses : Ctx → List CloseCall → Ctx × Nat
  | ctx, [] => (ctx, 0)
  | ctx, c :: rest =>
    let s := closeCallStep ctx c
    let t := runCloses s.1 rest
    (t.1, (if s.2 then 1 else 0) + t.2)

/-! ## base64 (`encoding/base64.StdEncoding`) -/

def b64Alphabet : List Char :=
  ("ABCDEFGHIJKLMNOPQRSTUVWXYZabcdefghijklmnopqrstuvwxyz0123456789+/").data

def b64Char (n : Nat) : Char := b64Alphabet.getD n 'A'

/-- RFC 4648 standard encoding with padding, over a byte list. -/
def base64Encode : List Nat → List Char
  | [] => []
  | [a] =>
    [b64Char (a / 4), b64Char (a % 4 * 16), '=', '=']
  | [a, b] =>
    [b64Char (a / 4), b64Char (a % 4 * 16 + b / 16), b64Char (b % 16 * 4), '=']
  | a :: b :: c :: rest =>
    b64Char (a / 4) :: b64Char (a % 4 * 16 + b / 16) ::
    b64Char (b % 16 * 4 + c / 64) :: b64Char (c % 64) :: base64Encode rest

/-- ASCII bytes of a string (all strings involved are ASCII). -/
def strBytes (s : String) : List Nat := s.data.map Char.toNat

/-- Model of `base64.StdEncoding.EncodeToString([]byte(s))`. -/
def base64String (s : String) : String := String.mk (base64Encode (strBytes s))

/-! ## The byte pump (`transfer`, `copyOrWarn`)

`transfer(ctx, src, dst)` spawns `copyOrWarn(ctx, src, dst, wg, &RespLength)`
(an `io.Copy(src, dst)`, i.e. the dst-to-src direction) and
`copyOrWarn(ctx, dst, src, wg, &ReqLength)` (the src-to-dst direction), waits
on the `WaitGroup`, then closes both ends.  At every call site `src` is the
client connection and `dst` the target connection.  The two goroutines write
disjoint counters and record the same error kind, so the sequentialisation
below is interleaving-independent; the `wg.Wait()` before the two closes is
recorded in the returned event list. -/

inductive PumpEvent
  | copyDoneTargetToClient
  | copyDoneClientToTarget
  | closeSrc
  | closeDst
deriving DecidableEq

/-- Model of `copyOrWarn`: the `io.Copy` result (`written`, error?) updates the
context error kind on failure; the caller stores `written` in a counter. -/
def copyOrWarnM (ctx : Ctx) (written : Int) (copyErr : Bool) : Ctx × Int :=
  (if copyErr then setErrType ctx .TunnelWriteConnFail else ctx, written)

structure PumpData where
  clientToTarget : Int := 0
  targetToClient : Int := 0
  clientToTargetErr : Bool := false
  targetToClientErr : Bool := false
deriving DecidableEq

def transferM (pio : PumpData) (ctx : Ctx) : Ctx × List PumpEvent :=
  let g1 := copyOrWarnM ctx pio.targetToClient pio.targetToClientErr
  let c1 := { g1.1 with RespLength := g1.2 }
  let g2 := copyOrWarnM c1 pio.clientToTarget pio.clientToTargetErr
  let c2 := { g2.1 with ReqLength := g2.2 }
  (c2, [.copyDoneTargetToClient, .copyDoneClientToTarget, .closeSrc, .closeDst])

/-! ## The execution model of the handler pipeline

Each forwarder is a function of an `Oracle` (the outcome of every external
interaction: delegate abort decisions, the resolved parent proxy, dial /
hijack / TLS / read / write results, copy lengths) and the incoming context.
It returns the delegate callbacks invoked in order, the final context, the
chunks written to the client socket (or response writer), the CONNECT request
written to a parent proxy if any, the sanitised header of the request issued
upstream if any, the argument passed to the caller-supplied continuation if
it was invoked, and whether the byte pump was started. -/

/-- Delegate callbacks, in pipeline order. -/
inductive DEvent
  | connect
  | auth
  | beforeRequest
  | parentProxy
  | beforeResponse
  | duringResponse
  | finish
deriving DecidableEq

/-- Pipeline stage order (§5 of the spec). -/
def rank : DEvent → Nat
  | .connect => 0
  | .auth => 1
  | .beforeRequest => 2
  | .parentProxy => 3
  | .beforeResponse => 4
  | .duringResponse => 5
  | .finish => 6

/-- Model of `url.URL` of a parent proxy: its `Host`, and `User` as an optional
(username, password) pair (`Password()` gives `""` when unset). -/
structure ParentURL where
  host : String
  user : Option (String × String)
deriving DecidableEq

/-- Data written towards the client: a raw byte string, a bare
`rw.WriteHeader(code)`, a `WriteProxyErrorToResponseBody` (JSON body with an
optional status-line prelude), or a relayed upstream/handshake HTTP
response. -/
inductive Chunk
  | raw (s : String)
  | statusOnly (code : Nat)
  | proxyError (code : Nat) (pre : String)
  | httpResponse
deriving DecidableEq

/-- Model of `tunnelEstablishedResponseLine`. -/
def estLine : String := "HTTP/1.1 200 Connection established\r\n\r\n"

/-- The CONNECT request written to a parent proxy (`forwardTunnel` lines
635-647): request-URI (`URL.Opaque`), `Host`, and the optional
`Proxy-Authorization` value. -/
structure ConnectReq where
  uriHost : String
  host : String
  proxyAuth : Option String
deriving DecidableEq

def mkConnectReq (r : Request) (u : ParentURL) : ConnectReq :=
  { uriHost := r.urlHost
    host := r.urlHost
    proxyAuth := match u.user with
      | none => none
      | some p => some ("Basic " ++ base64String (p.1 ++ ":" ++ p.2)) }

/-- The result of reading the single inner HTTP request off a terminated TLS
stream (`http.ReadRequest`). -/
inductive ReadOutcome
  | ok (r : Request)
  | eof
  | fail
deriving DecidableEq

/-- Every externally determined outcome of one request's processing. -/
structure Oracle where
  connectAbort : Bool := false
  authAbort : Bool := false
  beforeRequestAbort : Bool := false
  parentProxyAbort : Bool := false
  beforeResponseAbort : Bool := false
  parentProxy : Option ParentURL := none
  certOk : Bool := true
  hijackOk : Bool := true
  hijackSupported : Bool := true
  estWriteOk : Bool := true
  tlsHandshakeOk : Bool := true
  innerRead : ReadOutcome := .eof
  dialOk : Bool := true
  connectWriteOk : Bool := true
  dumpOk : Bool := true
  dumpLen : Int := 0
  roundTripOk : Bool := true
  respStatus : Nat := 200
  respHeader : Header := ⟨[]⟩
  bodyCopyLen : Int := 0
  bodyCopyErr : Bool := false
  respWriteLen : Int := 0
  respWriteErr : Bool := false
  proxyErrLen : Int := 0
  wsWriteReqOk : Bool := true
  wsReadRespOk : Bool := true
  wsWriteRespOk : Bool := true
  pump : PumpData := {}
deriving DecidableEq

/-- What a caller-supplied `responseFunc` continuation receives: whether the
round trip succeeded, and (on success) the response header after the
response-side stripping. -/
structure DoRespArg where
  ok : Bool
  respHeader : Header
deriving DecidableEq

/-- What a continuation produces: delegate events it invoked, the context it
leaves, and the chunks it wrote to the client. -/
structure KOut where
  events : List DEvent := []
  ctx : Ctx
  clientWrites : List Chunk := []
deriving DecidableEq

/-- The observable result of one handler (or of `DoRequest`). -/
structure RunResult where
  events : List DEvent := []
  ctx : Ctx
  clientWrites : List Chunk := []
  upstreamConnect : Option ConnectReq := none
  upstreamHeader : Option Header := none
  contArg : Option DoRespArg := none
  pumpRan : Bool := false
  pumpTrace : List PumpEvent := []
deriving DecidableEq

/-- Model of `DoRequest` (lines 159-263).  `connCount` is the length of the variadic
`conn` argument; `k` is the caller's `responseFunc`.  The request is cloned
with a deep header copy and sanitised before `ParentProxy` resolution; the
sanitised request is issued upstream by `tr.RoundTrip` before
`BeforeResponse` runs; the response header is stripped only on transport
success, and the continuation is invoked last. -/
def doRequestM (o : Oracle) (ctx : Ctx) (connCount : Nat)
    (k : Ctx → DoRespArg → KOut) : RunResult :=
  if connCount > 1 then { ctx := ctx }
  else if o.beforeRequestAbort then
    { events := [.beforeRequest]
      ctx := setErrType { ctx with abort := true } .BeforeRequestFail }
  else
    let newHeader := sanitizeRequestHeader ctx.Req.header
    if o.parentProxyAbort then
      { events := [.beforeRequest, .parentProxy]
        ctx := setErrType { ctx with abort := true } .ParentProxyFail }
    else
      let ctx := if o.dumpOk then { ctx with ReqLength := o.dumpLen } else ctx
      if o.beforeResponseAbort then
        { events := [.beforeRequest, .parentProxy, .beforeResponse]
          ctx := setErrType { ctx with abort := true } .BeforeResponseFail
          upstreamHeader := some newHeader }
      else
        let arg : DoRespArg :=
          if o.roundTripOk then ⟨true, sanitizeResponseHeader o.respHeader⟩
          else ⟨false, ⟨[]⟩⟩
        let kr := k ctx arg
        { events := [.beforeRequest, .parentProxy, .beforeResponse] ++ kr.events
          ctx := kr.ctx
          clientWrites := kr.clientWrites
          upstreamHeader := some newHeader
          contArg := some arg }

/-- The continuation of `forwardHTTP` (lines 490-512): on transport error a
502 status plus JSON ProxyError body; on success `DuringResponse`, header
copy, status write, body streamed with `RespLength` accounting, and the
deferred `CloseResponseBody`. -/
def kHTTP (o : Oracle) (ctx : Ctx) (a : DoRespArg) : KOut :=
  if a.ok then
    let c1 := { ctx with RespLength := o.bodyCopyLen }
    let c2 := if o.bodyCopyErr then setErrType c1 .HTTPWriteClientFail else c1
    { events := [.duringResponse]
      ctx := (CloseResponseBodyM c2).1
      clientWrites := [.statusOnly o.respStatus, .httpResponse] }
  else
    { ctx := setErrType { ctx with RespLength := ctx.RespLength + o.proxyErrLen }
        .HTTPDoRequestFail
      clientWrites := [.statusOnly 502, .proxyError 502 ""] }

/-- Model of `forwardHTTP` (lines 487-513). -/
def forwardHTTPM (o : Oracle) (ctx : Ctx) : RunResult :=
  let ctx := { ctx with Req := { ctx.Req with urlScheme := "http" } }
  doRequestM o ctx 0 (kHTTP o)

/-- The continuation of `forwardHTTPS` (lines 564-581): on transport error a
ProxyError body with an `HTTP/1.1 502 ` prelude over the inner TLS stream; on
success `DuringResponse`, the full response written through a
`WriterWithLength` into `RespLength`, and the deferred
`CloseResponseBody`. -/
def kHTTPS (o : Oracle) (ctx : Ctx) (a : DoRespArg) : KOut :=
  if a.ok then
    let c1 := if o.respWriteErr then setErrType ctx .HTTPSWriteRespFail else ctx
    let c2 := { c1 with RespLength := o.respWriteLen }
    { events := [.duringResponse]
      ctx := (CloseResponseBodyM c2).1
      clientWrites := [.httpResponse] }
  else
    { ctx := setErrType { ctx with RespLength := ctx.RespLength + o.proxyErrLen }
        .HTTPSDoRequestFail
      clientWrites := [.proxyError 502 "HTTP/1.1 502 "] }

/-- The tail of `forwardHTTPS` (lines 559-581) once the inner request has
been read: replace `ctx.Req` by the inner request (scheme `https`, host from
`Host`, original `RemoteAddr`), call `DoRequest` with the TLS client
connection as the single `conn`, and run the deferred `CloseNetConn`. -/
def forwardHTTPSInnerM (o : Oracle) (ctx : Ctx) (r : Request) : RunResult :=
  let tlsReq := { r with remoteAddr := ctx.Req.remoteAddr,
                         urlScheme := "https", urlHost := r.host }
  let ctx := { ctx with Req := tlsReq }
  let dr := doRequestM o ctx 1 (kHTTPS o)
  { dr with ctx := closeNet dr.ctx
            clientWrites := [.raw estLine] ++ dr.clientWrites }

/-- Model of `forwardHTTPS` (lines 515-582).  The deferred `CloseNetConn` on the inner
TLS connection is registered after the established-line write, so it runs on
every later return path. -/
def forwardHTTPSM (o : Oracle) (ctx : Ctx) : RunResult :=
  if !o.certOk then
    { ctx := setErrType { ctx with RespLength := ctx.RespLength + o.proxyErrLen }
        .HTTPSGenerateTLSConfigFail
      clientWrites := [.statusOnly 502, .proxyError 502 ""] }
  else if !o.hijackOk then
    { ctx := setErrType { ctx with RespLength := ctx.RespLength + o.proxyErrLen }
        .HTTPSHijackClientConnFail
      clientWrites := [.statusOnly 502, .proxyError 502 ""] }
  else
    let ctx := { ctx with Hijack := true }
    if !o.estWriteOk then
      { ctx := setErrType ctx .HTTPSWriteEstRespFail }
    else if !o.tlsHandshakeOk then
      { ctx := closeNet (setErrType ctx .HTTPSTLSClientConnHandshakeFail)
        clientWrites := [.raw estLine] }
    else
      match o.innerRead with
      | .eof =>
        { ctx := closeNet ctx, clientWrites := [.raw estLine] }
      | .fail =>
        { ctx := closeNet (setErrType ctx .HTTPSReadReqFromBufFail)
          clientWrites := [.raw estLine] }
      | .ok r => forwardHTTPSInnerM o ctx r

/-- Model of `forwardTunnel` (lines 584-658).  `ParentProxy` is resolved first; the
dial outcome is wrapped and shown to `BeforeResponse` before the dial error
is examined; the deferred `CloseNetConn` on the target is registered only
after a successful dial survives `BeforeResponse`. -/
def forwardTunnelM (o : Oracle) (ctx : Ctx) : RunResult :=
  if o.parentProxyAbort then
    { events := [.parentProxy]
      ctx := setErrType { ctx with abort := true } .ParentProxyFail }
  else if !o.hijackOk then
    { events := [.parentProxy]
      ctx := setErrType { ctx with RespLength := ctx.RespLength + o.proxyErrLen }
        .TunnelHijackClientConnFail
      clientWrites := [.statusOnly 502, .proxyError 502 ""] }
  else
    let ctx := { ctx with Hijack := true }
    if o.beforeResponseAbort then
      { events := [.parentProxy, .beforeResponse]
        ctx := setErrType { ctx with abort := true } .BeforeResponseFail }
    else if !o.dialOk then
      { events := [.parentProxy, .beforeResponse]
        ctx := setErrType { ctx with RespLength := ctx.RespLength + o.proxyErrLen }
          .TunnelDialRemoteServerFail
        clientWrites := [.proxyError 502 "HTTP/1.1 502 "] }
    else
      match o.parentProxy with
      | none =>
        if !o.estWriteOk then
          { events := [.parentProxy, .beforeResponse, .duringResponse]
            ctx := closeNet (setErrType ctx .TunnelWriteEstRespFail) }
        else
          let pr := transferM o.pump ctx
          { events := [.parentProxy, .beforeResponse, .duringResponse]
            ctx := closeNet pr.1
            clientWrites := [.raw estLine]
            pumpRan := true
            pumpTrace := pr.2 }
      | some u =>
        if !o.connectWriteOk then
          { events := [.parentProxy, .beforeResponse, .duringResponse]
            ctx := closeNet (setErrType
              { ctx with RespLength := ctx.RespLength + o.proxyErrLen }
              .TunnelConnectRemoteFail)
            clientWrites := [.proxyError 502 "HTTP/1.1 502 "] }
        else
          let pr := transferM o.pump ctx
          { events := [.parentProxy, .beforeResponse, .duringResponse]
            ctx := closeNet pr.1
            upstreamConnect := some (mkConnectReq ctx.Req u)
            pumpRan := true
            pumpTrace := pr.2 }

/-- Model of `serveWebsocket` (lines 309-357), reached through `forwardHTTPWebsocket`.
After hijacking, line 346 is a plain `clientConn.Close()` (not deferred), so
the client connection is already closed when `websocketHandshake` tries to
write the handshake response back to it: that write always fails (a write on
a closed `net.Conn` errors), the handshake reports failure, and `transfer` is
never reached.  When the response writer is not a `http.Hijacker` the source
panics; Go still runs the deferred functions (`CloseNetConn` here, and
`Finish` in `ServeHTTP`) while unwinding, so that path is an early return in
the model. -/
def serveWebsocketM (o : Oracle) (ctx : Ctx) : RunResult :=
  if o.parentProxyAbort then
    { events := [.parentProxy]
      ctx := setErrType { ctx with abort := true } .ParentProxyFail }
  else
    let ctx := { ctx with Req := { ctx.Req with urlScheme := "ws" } }
    if !o.dialOk then
      { events := [.parentProxy]
        ctx := setErrType ctx .HTTPWebsocketDailFail
        clientWrites := [.statusOnly 502] }
    else if !o.hijackSupported then
      { events := [.parentProxy], ctx := closeNet ctx }
    else if !o.hijackOk then
      { events := [.parentProxy]
        ctx := closeNet (setErrType ctx .HTTPWebsocketHijackFail)
        clientWrites := [.statusOnly 502] }
    else
      let ctx := { ctx with Hijack := true }
      let clientConnClosed := true
      if !o.wsWriteReqOk then
        { events := [.parentProxy]
          ctx := closeNet (setErrType ctx .HTTPWebsocketHandshakeFail) }
      else if !o.wsReadRespOk then
        { events := [.parentProxy]
          ctx := closeNet (setErrType ctx .HTTPWebsocketHandshakeFail) }
      else if clientConnClosed || !o.wsWriteRespOk then
        { events := [.parentProxy]
          ctx := closeNet (setErrType ctx .HTTPWebsocketHandshakeFail) }
      else
        let pr := transferM o.pump ctx
        { events := [.parentProxy]
          ctx := closeNet pr.1
          clientWrites := [.httpResponse]
          pumpRan := true
          pumpTrace := pr.2 }

/-- Model of `serveWebsocketTLS` (lines 360-448), reached through
`forwardHTTPSWebsocket`.  The deferred `CloseNetConn` on the TLS client
connection is registered after the established-line write; a second deferred
`CloseNetConn` on the target connection is a no-op under the close-once
guard. -/
def serveWebsocketTLSM (o : Oracle) (ctx : Ctx) : RunResult :=
  if o.parentProxyAbort then
    { events := [.parentProxy]
      ctx := setErrType { ctx with abort := true } .ParentProxyFail }
  else if !o.certOk then
    { events := [.parentProxy]
      ctx := setErrType ctx .HTTPSWebsocketGenerateTLSConfigFail
      clientWrites := [.statusOnly 502] }
  else if !o.hijackOk then
    { events := [.parentProxy]
      ctx := setErrType ctx .HTTPSWebsocketHijackFail
      clientWrites := [.statusOnly 502] }
  else
    let ctx := { ctx with Hijack := true }
    if !o.estWriteOk then
      { events := [.parentProxy]
        ctx := setErrType ctx .HTTPSWebsocketWriteEstRespFail }
    else if !o.tlsHandshakeOk then
      { events := [.parentProxy]
        ctx := closeNet (setErrType ctx .HTTPSWebsocketTLSClientConnHandshakeFail)
        clientWrites := [.raw estLine] }
    else
      match o.innerRead with
      | .eof =>
        { events := [.parentProxy], ctx := closeNet ctx
          clientWrites := [.raw estLine] }
      | .fail =>
        { events := [.parentProxy]
          ctx := closeNet (setErrType ctx .HTTPSWebsocketReadReqFromBufFail)
          clientWrites := [.raw estLine] }
      | .ok wsReq =>
        if !o.dialOk then
          { events := [.parentProxy]
            ctx := closeNet (setErrType ctx .HTTPSWebsocketDailFail)
            clientWrites := [.raw estLine, .statusOnly 502] }
        else
          let wsReq2 := { wsReq with urlScheme := "wss", urlHost := wsReq.host }
          let ctx := { ctx with Req := wsReq2 }
          if !o.wsWriteReqOk then
            { events := [.parentProxy]
              ctx := closeNet (setErrType ctx .HTTPSWebsocketHandshakeFail)
              clientWrites := [.raw estLine] }
          else if !o.wsReadRespOk then
            { events := [.parentProxy]
              ctx := closeNet (setErrType ctx .HTTPSWebsocketHandshakeFail)
              clientWrites := [.raw estLine] }
          else if !o.wsWriteRespOk then
            { events := [.parentProxy]
              ctx := closeNet (setErrType ctx .HTTPSWebsocketHandshakeFail)
              clientWrites := [.raw estLine] }
          else
            let pr := transferM o.pump ctx
            { events := [.parentProxy]
              ctx := closeNet pr.1
              clientWrites := [.raw estLine, .httpResponse]
              pumpRan := true
              pumpTrace := pr.2 }

/-- Model of `ServeHTTP` (lines 100-149): URL-host fixup, context creation, deferred
`Finish`, `Connect` and `Auth` with their abort checks, then dispatch.  The
deferred `Finish` is appended to every path, including the panic path inside
`serveWebsocket`. -/
def serveHTTPM (o : Oracle) (req : Request) : RunResult :=
  let req := if req.urlHost = "" then { req with urlHost := req.host } else req
  let ctx0 : Ctx := { Req := req }
  if o.connectAbort then
    { events := [.connect, .finish]
      ctx := setErrType { ctx0 with abort := true } .ConnectFail }
  else if o.authAbort then
    { events := [.connect, .auth, .finish]
      ctx := setErrType { ctx0 with abort := true } .AuthFail }
  else
    let hr := match dispatchM req with
      | .mitmWebsocket => serveWebsocketTLSM o { ctx0 with MITM := true }
      | .mitmHTTPS => forwardHTTPSM o { ctx0 with MITM := true }
      | .tunnel => forwardTunnelM o ctx0
      | .plainWebsocket => serveWebsocketM o ctx0
      | .plainHTTP => forwardHTTPM o ctx0
    { hr with events := [.connect, .auth] ++ hr.events ++ [.finish] }

/-- The call sites of the byte pump: the opaque tunnel and the two WebSocket
forwarders, each of which invokes `transfer(ctx, clientConn, targetConn)`. -/
inductive PumpSite
  | tunnel
  | wsTLS
  | wsPlain
deriving DecidableEq

def runPumpSite : PumpSite → Oracle → Ctx → RunResult
  | .tunnel, o, ctx => forwardTunnelM o ctx
  | .wsTLS, o, ctx => serveWebsocketTLSM o ctx
  | .wsPlain, o, ctx => serveWebsocketM o ctx

/-! ## Shared helper lemmas -/

@[simp] theorem closeNet_ReqLength (c : Ctx) : (closeNet c).ReqLength = c.ReqLength := by
  unfold closeNet CloseNetConnM
  split <;> rfl

@[simp] theorem closeNet_RespLength (c : Ctx) : (closeNet c).RespLength = c.RespLength := by
  unfold closeNet CloseNetConnM
  split <;> rfl

@[simp] theorem closeNet_errType (c : Ctx) : (closeNet c).errType = c.errType := by
  unfold closeNet CloseNetConnM
  split <;> rfl

@[simp] theorem transferM_ReqLength (p : PumpData) (c : Ctx) :
    (transferM p c).1.ReqLength = p.clientToTarget := rfl

@[simp] theorem transferM_RespLength (p : PumpData) (c : Ctx) :
    (transferM p c).1.RespLength = p.targetToClient := by
  unfold transferM copyOrWarnM setErrType
  dsimp only
  split <;> split <;> rfl

@[simp] theorem transferM_trace (p : PumpData) (c : Ctx) :
    (transferM p c).2 =
      [.copyDoneTargetToClient, .copyDoneClientToTarget, .closeSrc, .closeDst] := rfl

/-! ## Concrete fixtures used by witnesses and counterexamples -/

/-- A plain WebSocket upgrade request. -/
def reqW : Request :=
  { method := "GET", urlScheme := "http", urlHost := "example.com:443"
    host := "example.com:443", remoteAddr := "10.0.0.1:40000"
    header := ⟨[("Connection", ["keep-alive, Upgrade"]), ("Upgrade", ["WebSocket"])]⟩ }

def ctxW : Ctx := { Req := reqW }

/-- A continuation that does nothing. -/
def kNil : Ctx → DoRespArg → KOut := fun c _ => { ctx := c }

/-! ## C1: the dispatch table of `ServeHTTP` -/

/-- C1.  `ServeHTTP` routes every request by the dispatch table: CONNECT with
header `MITM: Enabled` goes to the MITM HTTPS forwarder, or to the MITM
WebSocket (TLS) forwarder when the request is a WebSocket upgrade; CONNECT
without that header to the opaque tunnel; any other method to the plain
WebSocket forwarder when the request is a WebSocket upgrade and to the plain
HTTP forwarder otherwise, where "WebSocket upgrade" is: the `Connection`
header contains the token `upgrade` and the `Upgrade` header the token
`websocket` (case-insensitive, comma-split, trimmed). -/
theorem serveHTTP_dispatch_table (r : Request) :
    (dispatchM r = .mitmHTTPS ↔
      r.method = "CONNECT" ∧ r.header.get "MITM" = "Enabled" ∧
      ¬ SpecIsWebSocketUpgrade r) ∧
    (dispatchM r = .mitmWebsocket ↔
      r.method = "CONNECT" ∧ r.header.get "MITM" = "Enabled" ∧
      SpecIsWebSocketUpgrade r) ∧
    (dispatchM r = .tunnel ↔
      r.method = "CONNECT" ∧ r.header.get "MITM" ≠ "Enabled") ∧
    (dispatchM r = .plainWebsocket ↔
      r.method ≠ "CONNECT" ∧ SpecIsWebSocketUpgrade r) ∧
    (dispatchM r = .plainHTTP ↔
      r.method ≠ "CONNECT" ∧ ¬ SpecIsWebSocketUpgrade r) := by
  have hws := isWebSocketRequest_iff_spec r
  simp only [← hws]
  unfold dispatchM
  by_cases hm : r.method = "CONNECT" <;>
    by_cases he : r.header.get "MITM" = "Enabled" <;>
      by_cases hw : isWebSocketRequest r = true <;>
        simp [hm, he, hw]

/-! ## C9: the close-once guard -/

/-- C9.  Across any serialised sequence of `CloseResponseBody` /
`CloseNetConn` calls, at most one close of a terminal resource is performed
when the context starts with `Closed = false` (and none when it starts
closed), and `Closed` ends true exactly when it started true or at least one
call ran. -/
theorem context_close_once (ctx : Ctx) (calls : List CloseCall) :
    (runCloses ctx calls).2 ≤ (if ctx.Closed then 0 else 1) ∧
    (runCloses ctx calls).1.Closed = (ctx.Closed || !calls.isEmpty) := by
  induction calls generalizing ctx with
  | nil => simp [runCloses]
  | cons c rest ih =>
    by_cases h : ctx.Closed
    · have hs : closeCallStep ctx c = (ctx, false) := by
        cases c <;> simp [closeCallStep, CloseResponseBodyM, CloseNetConnM, h]
      have hih := ih ctx
      rw [runCloses] at *
      simp only [hs, h] at hih ⊢
      simp_all
    · have hs : closeCallStep ctx c = ({ ctx with Closed := true }, true) := by
        cases c <;> simp [closeCallStep, CloseResponseBodyM, CloseNetConnM, h]
      have hih := ih { ctx with Closed := true }
      rw [runCloses]
      simp only [hs, h] at hih ⊢
      simp_all

/-! ## C10: the variadic-conn guard of `DoRequest` -/

/-- C10.  `DoRequest` called with more than one trailing `conn` argument
returns immediately: no delegate callback runs, the continuation is not
invoked, no request is issued upstream, nothing is written, and the context
is returned unchanged. -/
theorem doRequest_extra_conn_guard (o : Oracle) (ctx : Ctx) (cc : Nat)
    (k : Ctx → DoRespArg → KOut) (hcc : 1 < cc) :
    (doRequestM o ctx cc k).events = [] ∧
    (doRequestM o ctx cc k).ctx = ctx ∧
    (doRequestM o ctx cc k).contArg = none ∧
    (doRequestM o ctx cc k).upstreamHeader = none ∧
    (doRequestM o ctx cc k).clientWrites = [] ∧
    (doRequestM o ctx cc k).pumpRan = false := by
  simp [doRequestM, hcc]

theorem doRequest_extra_conn_guard_witness :
    (doRequestM {} ctxW 2 kNil).events = [] ∧ (doRequestM {} ctxW 2 kNil).ctx = ctxW := by
  refine ⟨?_, ?_⟩
  · exact (doRequest_extra_conn_guard {} ctxW 2 kNil (by decide)).1
  · exact (doRequest_extra_conn_guard {} ctxW 2 kNil (by decide)).2.1

/-! ## C5: byte accounting at the pump call sites -/

set_option maxHeartbeats 4000000 in
/-- C5.  On every path of the opaque tunnel and the WebSocket forwarders that
starts the byte pump (always as `transfer(ctx, clientConn, targetConn)`),
after the pump returns `ReqLength` is exactly the number of bytes copied from
the client connection to the target and `RespLength` exactly the number
copied from the target to the client connection. -/
theorem pump_byte_accounting (site : PumpSite) (o : Oracle) (ctx : Ctx)
    (hp : (runPumpSite site o ctx).pumpRan = true) :
    (runPumpSite site o ctx).ctx.ReqLength = o.pump.clientToTarget ∧
    (runPumpSite site o ctx).ctx.RespLength = o.pump.targetToClient := by
  cases site <;>
    · unfold runPumpSite forwardTunnelM serveWebsocketTLSM serveWebsocketM at hp ⊢
      repeat' split at hp
      all_goals simp_all

set_option maxHeartbeats 1000000 in
theorem pump_byte_accounting_witness :
    (runPumpSite .tunnel { pump := { clientToTarget := 7, targetToClient := 9 } } ctxW).ctx.ReqLength = 7 ∧
    (runPumpSite .wsTLS { innerRead := .ok reqW, pump := { clientToTarget := 2, targetToClient := 4 } } ctxW).ctx.RespLength = 4 := by
  refine ⟨?_, ?_⟩
  · exact (pump_byte_accounting .tunnel
      { pump := { clientToTarget := 7, targetToClient := 9 } } ctxW rfl).1
  · exact (pump_byte_accounting .wsTLS
      { innerRead := .ok reqW, pump := { clientToTarget := 2, targetToClient := 4 } } ctxW rfl).2

/-! ## C6: the direction labels of `transfer` -/

/-- Both one-way copies complete before either end is closed. -/
def pumpOrderOK (l : List PumpEvent) : Prop :=
  l.indexOf PumpEvent.copyDoneTargetToClient < l.indexOf PumpEvent.closeSrc ∧
  l.indexOf PumpEvent.copyDoneClientToTarget < l.indexOf PumpEvent.closeSrc ∧
  l.indexOf PumpEvent.copyDoneTargetToClient < l.indexOf PumpEvent.closeDst ∧
  l.indexOf PumpEvent.copyDoneClientToTarget < l.indexOf PumpEvent.closeDst

/-- C6 as stated: for `transfer(ctx, src, dst)` the bytes copied in the
src-to-dst direction (client-to-target at every call site) land in
`RespLength` and the dst-to-src bytes in `ReqLength`; both copies complete
before the closes; a copy error records `TunnelWriteConnFail`. -/
def claimC6Stated : Prop :=
  ∀ (p : PumpData) (ctx : Ctx),
    (transferM p ctx).1.RespLength = p.clientToTarget ∧
    (transferM p ctx).1.ReqLength = p.targetToClient ∧
    pumpOrderOK (transferM p ctx).2 ∧
    ((p.clientToTargetErr = true ∨ p.targetToClientErr = true) →
      (transferM p ctx).1.errType = some ErrType.TunnelWriteConnFail)

/-- C6 counterexample: with 3 bytes copied src-to-dst (client-to-target) and
5 bytes dst-to-src, `RespLength` ends at 5, not 3: the direction labels in
the claim are swapped. -/
theorem transfer_direction_counterexample : ¬ claimC6Stated := by
  intro h
  exact absurd ((h ⟨3, 5, false, false⟩ ctxW).1) (by decide)

/-- C6 amended: `transfer(ctx, src, dst)` records the dst-to-src
(target-to-client) byte count into `ctx.RespLength` and the src-to-dst
(client-to-target) count into `ctx.ReqLength`; both one-way copies run to
completion before either end is closed; a copy error in either direction
records `TunnelWriteConnFail` on the context while the counters of both
directions are still recorded (the other direction is not aborted), and with
no copy error the context error kind is unchanged. -/
theorem transfer_pump_properties (p : PumpData) (ctx : Ctx) :
    (transferM p ctx).1.RespLength = p.targetToClient ∧
    (transferM p ctx).1.ReqLength = p.clientToTarget ∧
    pumpOrderOK (transferM p ctx).2 ∧
    ((p.clientToTargetErr = true ∨ p.targetToClientErr = true) →
      (transferM p ctx).1.errType = some ErrType.TunnelWriteConnFail) ∧
    (p.clientToTargetErr = false → p.targetToClientErr = false →
      (transferM p ctx).1.errType = ctx.errType) := by
  refine ⟨transferM_RespLength p ctx, transferM_ReqLength p ctx, ?_, ?_, ?_⟩
  · rw [pumpOrderOK, transferM_trace]
    decide
  · intro h
    unfold transferM copyOrWarnM setErrType
    rcases h with h | h <;> simp [h]
  · intro h1 h2
    simp [transferM, copyOrWarnM, h1, h2]

theorem transfer_pump_properties_witness :
    (transferM ⟨3, 5, true, false⟩ ctxW).1.errType = some ErrType.TunnelWriteConnFail ∧
    (transferM ⟨3, 5, false, false⟩ ctxW).1.errType = none := by
  refine ⟨?_, ?_⟩
  · exact (transfer_pump_properties ⟨3, 5, true, false⟩ ctxW).2.2.2.1 (Or.inl rfl)
  · exact ((transfer_pump_properties ⟨3, 5, false, false⟩ ctxW).2.2.2.2 rfl rfl).trans rfl

/-! ## C4: tunnel establishment towards client and parent -/

/-- C4.  In the opaque CONNECT tunnel, on every path that reaches the byte
pump: with no parent proxy the client received exactly the bytes
`HTTP/1.1 200 Connection established\r\n\r\n` and no CONNECT was written
upstream; with a parent proxy nothing was written to the client and the
upstream received a CONNECT request whose request-URI (`URL.Opaque`) and
`Host` are `Req.URL.Host`, carrying `Proxy-Authorization: Basic
base64(user:pass)` exactly when the parent URL has user-info. -/
theorem tunnel_establishment (o : Oracle) (ctx : Ctx)
    (hp : (forwardTunnelM o ctx).pumpRan = true) :
    (forwardTunnelM o ctx).clientWrites =
      (match o.parentProxy with
       | none => [Chunk.raw estLine]
       | some _ => []) ∧
    (forwardTunnelM o ctx).upstreamConnect =
      (match o.parentProxy with
       | none => none
       | some u =>
         some { uriHost := ctx.Req.urlHost, host := ctx.Req.urlHost
                proxyAuth :=
                  match u.user with
                  | none => none
                  | some cred =>
                    some ("Basic " ++ base64String (cred.1 ++ ":" ++ cred.2)) }) := by
  unfold forwardTunnelM at hp ⊢
  repeat' split at hp
  all_goals simp_all [mkConnectReq]

theorem tunnel_establishment_witness :
    (forwardTunnelM {} ctxW).clientWrites = [Chunk.raw estLine] ∧
    (forwardTunnelM { parentProxy := some ⟨"upstream:3128", some ("u", "p")⟩ } ctxW).upstreamConnect =
      some { uriHost := "example.com:443", host := "example.com:443"
             proxyAuth := some "Basic dTpw" } := by
  refine ⟨?_, ?_⟩
  · exact ((tunnel_establishment {} ctxW (by decide)).1).trans (by decide)
  · exact ((tunnel_establishment
      { parentProxy := some ⟨"upstream:3128", some ("u", "p")⟩ } ctxW (by decide)).2).trans
      (by decide)

/-! ## C8: MITM inner-request read failure -/

/-- C8.  In the MITM HTTPS forwarder, when reading the single inner request
off the terminated TLS stream fails: on EOF the handler returns with the
context error kind unchanged; on any other error it records
`HTTPSReadReqFromBufFail`; in both cases nothing is written to the client
beyond the earlier `200 Connection established` line, no delegate callback
runs in the handler, and no request is issued upstream. -/
theorem mitm_inner_read_failure (o : Oracle) (ctx : Ctx)
    (hc : o.certOk = true) (hh : o.hijackOk = true) (he : o.estWriteOk = true)
    (ht : o.tlsHandshakeOk = true) (hr : o.innerRead = .eof ∨ o.innerRead = .fail) :
    (forwardHTTPSM o ctx).clientWrites = [Chunk.raw estLine] ∧
    (forwardHTTPSM o ctx).events = [] ∧
    (forwardHTTPSM o ctx).upstreamHeader = none ∧
    (forwardHTTPSM o ctx).ctx.errType =
      (match o.innerRead with
       | .fail => some ErrType.HTTPSReadReqFromBufFail
       | _ => ctx.errType) := by
  rcases hr with h | h <;>
    simp [forwardHTTPSM, hc, hh, he, ht, h, setErrType]

theorem mitm_inner_read_failure_witness :
    (forwardHTTPSM {} ctxW).ctx.errType = none ∧
    (forwardHTTPSM { innerRead := .fail } ctxW).ctx.errType =
      some ErrType.HTTPSReadReqFromBufFail ∧
    (forwardHTTPSM { innerRead := .fail } ctxW).clientWrites = [Chunk.raw estLine] := by
  refine ⟨?_, ?_, ?_⟩
  · exact ((mitm_inner_read_failure {} ctxW rfl rfl rfl rfl (Or.inl rfl)).2.2.2).trans rfl
  · exact ((mitm_inner_read_failure { innerRead := .fail } ctxW rfl rfl rfl rfl
      (Or.inr rfl)).2.2.2).trans rfl
  · exact (mitm_inner_read_failure { innerRead := .fail } ctxW rfl rfl rfl rfl
      (Or.inr rfl)).1

/-! ## C2: header sanitisation in `DoRequest` -/

theorem lookup_del_self (h : Header) (k : String) :
    (h.del k).lookup (canonicalKey k) = none := by
  unfold Header.del Header.lookup
  rw [Option.map_eq_none', List.find?_eq_none]
  intro x hx
  have hm := (List.mem_filter.mp hx).2
  simpa using hm

/-- Filtering out one key leaves `find?` for any other key unchanged. -/
theorem find_filter_ne (l : List (String × List String)) (kk k2 : String)
    (hne : k2 ≠ kk) :
    List.find? (fun e => e.1 == k2) (l.filter (fun e => !(e.1 == kk))) =
      List.find? (fun e => e.1 == k2) l := by
  induction l with
  | nil => rfl
  | cons e rest ih =>
    by_cases he : e.1 = kk
    · have h1 : (!(e.1 == kk)) = false := by simp [he]
      have h2 : (e.1 == k2) = false := by
        rw [he]
        exact beq_false_of_ne (Ne.symm hne)
      rw [List.filter_cons, h1]
      simp only [Bool.false_eq_true, if_false, List.find?_cons, h2]
      exact ih
    · have h1 : (!(e.1 == kk)) = true := by simp [he]
      rw [List.filter_cons, h1]
      simp only [if_true, List.find?_cons]
      by_cases hk2 : (e.1 == k2) = true
      · simp only [hk2]
      · have hk2f : (e.1 == k2) = false := by simpa using hk2
        simp only [hk2f]
        exact ih

theorem lookup_del_other (h : Header) (k k2 : String) (hne : k2 ≠ canonicalKey k) :
    (h.del k).lookup k2 = h.lookup k2 := by
  unfold Header.del Header.lookup
  rw [find_filter_ne h.entries (canonicalKey k) k2 hne]

theorem get_del_other (h : Header) (k k2 : String)
    (hne : canonicalKey k2 ≠ canonicalKey k) :
    (h.del k).get k2 = h.get k2 := by
  unfold Header.get
  rw [lookup_del_other h k (canonicalKey k2) hne]

theorem del_preserves_none (h : Header) (k k2 : String)
    (h0 : h.lookup k2 = none) : (h.del k).lookup k2 = none := by
  by_cases hne : k2 = canonicalKey k
  · subst hne
    exact lookup_del_self h k
  · rw [lookup_del_other h k k2 hne]
    exact h0

/-- A fold whose every step is the identity or a deletion preserves the
absence of a key. -/
theorem foldl_del_preserves_none {α : Type} (l : List α) (g : Header → α → Header)
    (hg : ∀ h a, g h a = h ∨ ∃ f, g h a = Header.del h f) (k2 : String)
    (h : Header) (h0 : h.lookup k2 = none) :
    (l.foldl g h).lookup k2 = none := by
  induction l generalizing h with
  | nil => exact h0
  | cons a rest ih =>
    have hstep : (g h a).lookup k2 = none := by
      rcases hg h a with he | ⟨f, he⟩
      · rw [he]; exact h0
      · rw [he]; exact del_preserves_none h f k2 h0
    rw [List.foldl_cons]
    exact ih (g h a) hstep

theorem removeConn_preserves_none (h : Header) (k2 : String)
    (h0 : h.lookup k2 = none) : (removeConnectionHeaders h).lookup k2 = none := by
  simp only [removeConnectionHeaders]
  split
  · apply foldl_del_preserves_none _ _ _ k2 h h0
    intro h2 f
    by_cases hf : goTrim f ≠ ""
    · exact Or.inr ⟨goTrim f, by rw [if_pos hf]⟩
    · exact Or.inl (by rw [if_neg hf])
  · exact h0

theorem stripHop_preserves_none (h : Header) (k2 : String)
    (h0 : h.lookup k2 = none) : (stripHopRequestHeaders h).lookup k2 = none := by
  unfold stripHopRequestHeaders
  apply foldl_del_preserves_none _ _ _ k2 h h0
  intro h2 it
  by_cases hv : h2.get it ≠ ""
  · exact Or.inr ⟨it, by rw [if_pos hv]⟩
  · exact Or.inl (by rw [if_neg hv])

/-- The token-deleting fold of `removeConnectionHeaders` removes every header
named by a non-empty trimmed token of the list. -/
theorem foldl_tokens_absent (l : List String) (h : Header) (f : String)
    (hf : f ∈ l) (hne : goTrim f ≠ "") :
    (l.foldl (fun h2 g => if goTrim g ≠ "" then h2.del (goTrim g) else h2) h).lookup
      (canonicalKey (goTrim f)) = none := by
  induction l generalizing h with
  | nil => cases hf
  | cons a rest ih =>
    rcases List.mem_cons.mp hf with rfl | hmem
    · rw [List.foldl_cons]
      apply foldl_del_preserves_none
      · intro h2 g
        by_cases hg : goTrim g ≠ ""
        · exact Or.inr ⟨goTrim g, by rw [if_pos hg]⟩
        · exact Or.inl (by rw [if_neg hg])
      · rw [if_pos hne]
        exact lookup_del_self h (goTrim f)
    · rw [List.foldl_cons]
      exact ih _ hmem

theorem removeConn_token_absent (h : Header) (f : String)
    (hf : f ∈ goSplitComma (h.get "Connection")) (hne : goTrim f ≠ "") :
    (removeConnectionHeaders h).lookup (canonicalKey (goTrim f)) = none := by
  have hc : h.get "Connection" ≠ "" := by
    intro h0
    rw [h0] at hf
    have hsplit : goSplitComma "" = [""] := rfl
    rw [hsplit, List.mem_singleton] at hf
    subst hf
    exact hne rfl
  simp only [removeConnectionHeaders]
  rw [if_pos hc]
  exact foldl_tokens_absent _ h f hf hne

/-- The hop-by-hop loop removes every listed header whose `Get` value at its
turn is non-empty; under canonical, duplicate-free names the value at its
turn equals the value before the loop. -/
theorem foldl_hop_absent (l : List String) (h : Header) (item : String)
    (hmem : item ∈ l) (hcanon : ∀ x ∈ l, canonicalKey x = x) (hnd : l.Nodup)
    (hval : h.get item ≠ "") :
    (l.foldl (fun h2 it => if h2.get it ≠ "" then h2.del it else h2) h).lookup
      item = none := by
  induction l generalizing h with
  | nil => cases hmem
  | cons a rest ih =>
    rcases List.mem_cons.mp hmem with rfl | hmem2
    · rw [List.foldl_cons]
      apply foldl_del_preserves_none
      · intro h2 it
        by_cases hv : h2.get it ≠ ""
        · exact Or.inr ⟨it, by rw [if_pos hv]⟩
        · exact Or.inl (by rw [if_neg hv])
      · rw [if_pos hval]
        have hci : canonicalKey item = item := hcanon item (List.mem_cons_self _ _)
        have hd := lookup_del_self h item
        rwa [hci] at hd
    · have hne : a ≠ item := by
        intro he
        subst he
        exact (List.nodup_cons.mp hnd).1 hmem2
      have hca : canonicalKey a = a := hcanon a (List.mem_cons_self _ _)
      have hci : canonicalKey item = item := hcanon item (List.mem_cons_of_mem _ hmem2)
      rw [List.foldl_cons]
      have hval2 : (if h.get a ≠ "" then h.del a else h).get item ≠ "" := by
        by_cases hv : h.get a ≠ ""
        · rw [if_pos hv, get_del_other h a item (by rw [hca, hci]; exact Ne.symm hne)]
          exact hval
        · rw [if_neg hv]
          exact hval
      exact ih _ hmem2 (List.forall_mem_cons.mp hcanon).2 (List.nodup_cons.mp hnd).2 hval2

/-- The unconditional response-side hop deletion loop removes every listed
(canonical) name. -/
theorem foldl_del_absent (l : List String) (h : Header) (item : String)
    (hmem : item ∈ l) (hci : canonicalKey item = item) :
    (l.foldl (fun h2 x => h2.del x) h).lookup item = none := by
  induction l generalizing h with
  | nil => cases hmem
  | cons a rest ih =>
    rcases List.mem_cons.mp hmem with rfl | hmem2
    · rw [List.foldl_cons]
      apply foldl_del_preserves_none
      · intro h2 x
        exact Or.inr ⟨x, rfl⟩
      · have hd := lookup_del_self h item
        rwa [hci] at hd
    · rw [List.foldl_cons]
      exact ih _ hmem2

theorem removeMITM_get_Connection (h : Header) :
    (removeMITMHeaders h).get "Connection" = h.get "Connection" := by
  unfold removeMITMHeaders
  split
  · unfold Header.get
    rw [lookup_del_other h "MITM" (canonicalKey "Connection") (by decide)]
  · rfl

/-- The characterisation of the header attached to the upstream request: when
one is issued, it is exactly the sanitised clone of `ctx.Req.Header`. -/
theorem doRequestM_upstreamHeader (o : Oracle) (ctx : Ctx) (cc : Nat)
    (k : Ctx → DoRespArg → KOut) :
    (doRequestM o ctx cc k).upstreamHeader = none ∨
    (doRequestM o ctx cc k).upstreamHeader =
      some (sanitizeRequestHeader ctx.Req.header) := by
  unfold doRequestM
  repeat' split
  all_goals simp

/-- The characterisation of the continuation argument: when the continuation
runs after transport success, it receives the stripped response header. -/
theorem doRequestM_contArg (o : Oracle) (ctx : Ctx) (cc : Nat)
    (k : Ctx → DoRespArg → KOut) :
    (doRequestM o ctx cc k).contArg = none ∨
    (doRequestM o ctx cc k).contArg =
      some (if o.roundTripOk then
              ⟨true, sanitizeResponseHeader o.respHeader⟩
            else ⟨false, ⟨[]⟩⟩) := by
  unfold doRequestM
  repeat' split
  all_goals simp

/-- C2 as stated: the forwarded request carries no MITM marker, no header
listed as a token in (any value of) the request's `Connection` header, and no
hop-by-hop header; the successful response as passed to the continuation
likewise. -/
def claimC2Stated : Prop :=
  ∀ (o : Oracle) (ctx : Ctx) (cc : Nat) (k : Ctx → DoRespArg → KOut) (hh : Header),
    (doRequestM o ctx cc k).upstreamHeader = some hh →
    (hh.lookup "Mitm" = none ∧
     (∀ v ∈ ctx.Req.header.rawVals "Connection", ∀ f ∈ goSplitComma v,
        goTrim f ≠ "" → hh.lookup (canonicalKey (goTrim f)) = none) ∧
     (∀ item ∈ hopHeaders, hh.lookup item = none)) ∧
    (∀ a, (doRequestM o ctx cc k).contArg = some a → a.ok = true →
      ((∀ item ∈ hopHeaders, a.respHeader.lookup item = none) ∧
       (∀ v ∈ o.respHeader.rawVals "Connection", ∀ f ∈ goSplitComma v,
          goTrim f ≠ "" → a.respHeader.lookup (canonicalKey (goTrim f)) = none)))

/-- The counterexample request header: `Connection` has an empty first value
(so no Connection-token stripping happens and `Connection` itself survives
the hop loop), `X-Token` is listed in the second `Connection` value but never
deleted, and the hop-by-hop header `Te` is present with an empty value, so
the `Get(item) != ""` guard skips its deletion. -/
def hdrCE : Header :=
  ⟨[("Connection", ["", "X-Token"]), ("X-Token", ["1"]), ("Te", [""])]⟩

def ctxCE : Ctx := { Req := { reqW with header := hdrCE } }

/-- C2 counterexample: on `hdrCE` the sanitised upstream request still
carries `Te` (and `Connection`, and `X-Token`). -/
theorem headers_counterexample : ¬ claimC2Stated := by
  intro hcl
  have h := ((hcl {} ctxCE 0 kNil (sanitizeRequestHeader hdrCE) rfl).1).2.2
    "Te" (by decide)
  exact absurd h (by decide)

set_option maxHeartbeats 2000000 in
/-- C2 amended.  For every request forwarded upstream through `DoRequest`:
the forwarded header carries no MITM marker when the marker's first value was
non-empty; no header named by a non-empty trimmed token of the FIRST value of
the request's `Connection` header; and no hop-by-hop header whose first value
was still non-empty after the Connection-token stripping.  For every
successful upstream response passed to the continuation: all hop-by-hop
headers are removed, and every header named by a non-empty trimmed token of
the first value of the response's `Connection` header is removed. -/
theorem doRequest_header_sanitisation (o : Oracle) (ctx : Ctx) (cc : Nat)
    (k : Ctx → DoRespArg → KOut) (hh : Header)
    (hiss : (doRequestM o ctx cc k).upstreamHeader = some hh) :
    (ctx.Req.header.get "MITM" ≠ "" → hh.lookup "Mitm" = none) ∧
    (∀ f ∈ goSplitComma (ctx.Req.header.get "Connection"), goTrim f ≠ "" →
      hh.lookup (canonicalKey (goTrim f)) = none) ∧
    (∀ item ∈ hopHeaders,
      (removeConnectionHeaders (removeMITMHeaders ctx.Req.header)).get item ≠ "" →
      hh.lookup item = none) ∧
    (∀ a, (doRequestM o ctx cc k).contArg = some a → a.ok = true →
      ((∀ item ∈ hopHeaders, a.respHeader.lookup item = none) ∧
       (∀ f ∈ goSplitComma (o.respHeader.get "Connection"), goTrim f ≠ "" →
          a.respHeader.lookup (canonicalKey (goTrim f)) = none))) := by
  have hhh : hh = sanitizeRequestHeader ctx.Req.header := by
    rcases doRequestM_upstreamHeader o ctx cc k with h | h
    · rw [h] at hiss; cases hiss
    · rw [h] at hiss; exact (Option.some_inj.mp hiss).symm
  rw [hhh]
  refine ⟨?_, ?_, ?_, ?_⟩
  · intro hm
    unfold sanitizeRequestHeader
    apply stripHop_preserves_none
    apply removeConn_preserves_none
    unfold removeMITMHeaders
    simp only [hm, ne_eq, not_false_eq_true, if_true]
    have := lookup_del_self ctx.Req.header "MITM"
    have hck : canonicalKey "MITM" = "Mitm" := by decide
    rwa [hck] at this
  · intro f hf hne
    unfold sanitizeRequestHeader
    apply stripHop_preserves_none
    apply removeConn_token_absent
    · rwa [removeMITM_get_Connection]
    · exact hne
  · intro item hmem hval
    unfold sanitizeRequestHeader stripHopRequestHeaders
    exact foldl_hop_absent hopHeaders _ item hmem (by decide) (by decide) hval
  · intro a ha hok
    have haa : a = ⟨true, sanitizeResponseHeader o.respHeader⟩ := by
      rcases doRequestM_contArg o ctx cc k with h | h
      · rw [h] at ha; cases ha
      · rw [h] at ha
        have := Option.some_inj.mp ha
        by_cases hrt : o.roundTripOk = true
        · rw [← this]; simp [hrt]
        · exfalso
          simp only [hrt, if_false, Bool.false_eq_true] at this
          rw [← this] at hok
          simp at hok
    subst haa
    constructor
    · intro item hmem
      unfold sanitizeResponseHeader
      have hcanon : ∀ x ∈ hopHeaders, canonicalKey x = x := by decide
      exact foldl_del_absent hopHeaders _ item hmem (hcanon item hmem)
    · intro f hf hne
      unfold sanitizeResponseHeader
      apply foldl_del_preserves_none
      · intro h2 x
        exact Or.inr ⟨x, rfl⟩
      · exact removeConn_token_absent o.respHeader f hf hne

/-- Fixture for the C2 witness: a sanitisable request header and a response
header carrying hop-by-hop and Connection-listed entries. -/
def hdrS1 : Header :=
  ⟨[("Mitm", ["Enabled"]), ("Connection", ["keep-alive"]),
    ("Keep-Alive", ["30"]), ("Te", ["trailers"]), ("Accept", ["*"])]⟩

def respHS1 : Header :=
  ⟨[("Connection", ["foo"]), ("Foo", ["1"]), ("Upgrade", ["h2c"]),
    ("Content-Type", ["text/plain"])]⟩

def ctxS1 : Ctx := { Req := { reqW with header := hdrS1 } }

theorem doRequest_header_sanitisation_witness :
    (sanitizeRequestHeader hdrS1).lookup "Mitm" = none ∧
    (sanitizeRequestHeader hdrS1).lookup "Keep-Alive" = none ∧
    (sanitizeRequestHeader hdrS1).lookup "Te" = none ∧
    (sanitizeResponseHeader respHS1).lookup "Upgrade" = none ∧
    (sanitizeResponseHeader respHS1).lookup (canonicalKey (goTrim "foo")) = none := by
  have h := doRequest_header_sanitisation { respHeader := respHS1 } ctxS1 0 kNil
    (sanitizeRequestHeader hdrS1) rfl
  have hresp := h.2.2.2 ⟨true, sanitizeResponseHeader respHS1⟩ rfl rfl
  refine ⟨h.1 (by decide), ?_, h.2.2.1 "Te" (by decide) (by decide),
    hresp.1 "Upgrade" (by decide), hresp.2 "foo" (by decide) (by decide)⟩
  have hk := h.2.1 "keep-alive" (by decide) (by decide)
  have : canonicalKey (goTrim "keep-alive") = "Keep-Alive" := by decide
  rwa [this] at hk

/-! ## C3: delegate-callback discipline

`delegateAborts o s` says the delegate sets `ctx.abort` inside the callback
of stage `s` (the five stages with an abort check in the source); `kindOf s`
is the error kind the source records at that check. -/

def delegateAborts (o : Oracle) : DEvent → Bool
  | .connect => o.connectAbort
  | .auth => o.authAbort
  | .beforeRequest => o.beforeRequestAbort
  | .parentProxy => o.parentProxyAbort
  | .beforeResponse => o.beforeResponseAbort
  | .duringResponse => false
  | .finish => false

def kindOf : DEvent → ErrType
  | .connect => .ConnectFail
  | .auth => .AuthFail
  | .beforeRequest => .BeforeRequestFail
  | .parentProxy => .ParentProxyFail
  | .beforeResponse => .BeforeResponseFail
  | .duringResponse => .ConnectFail
  | .finish => .ConnectFail

/-- The abort-suppression property of one handler run: whenever the delegate
aborted at a stage that actually ran, no later stage ran and the matching
error kind is recorded. -/
def habortProp (o : Oracle) (r : RunResult) : Prop :=
  ∀ s, delegateAborts o s = true → s ∈ r.events →
    (∀ t ∈ r.events, rank t ≤ rank s) ∧ r.ctx.errType = some (kindOf s)

/-- A continuation whose only delegate callback is `DuringResponse` (true of
both `forwardHTTP`'s and `forwardHTTPS`'s continuations). -/
def contOK (k : Ctx → DoRespArg → KOut) : Prop :=
  ∀ c a, ∀ t ∈ (k c a).events, t = DEvent.duringResponse

theorem kHTTP_contOK (o : Oracle) : contOK (kHTTP o) := by
  intro c a t ht
  unfold kHTTP at ht
  split at ht <;> simp_all

theorem kHTTPS_contOK (o : Oracle) : contOK (kHTTPS o) := by
  intro c a t ht
  unfold kHTTPS at ht
  split at ht <;> simp_all

theorem serveWebsocketM_events (o : Oracle) (ctx : Ctx) :
    (serveWebsocketM o ctx).events = [.parentProxy] := by
  unfold serveWebsocketM
  repeat' split
  all_goals rfl

theorem serveWebsocketTLSM_events (o : Oracle) (ctx : Ctx) :
    (serveWebsocketTLSM o ctx).events = [.parentProxy] := by
  unfold serveWebsocketTLSM
  repeat' split
  all_goals rfl

theorem serveWebsocketM_habort (o : Oracle) (ctx : Ctx) :
    habortProp o (serveWebsocketM o ctx) := by
  intro s hflag hmem
  rw [serveWebsocketM_events] at hmem ⊢
  rw [List.mem_singleton] at hmem
  subst hmem
  simp only [delegateAborts] at hflag
  constructor
  · intro t ht
    rw [List.mem_singleton] at ht
    subst ht
    exact le_refl _
  · simp [serveWebsocketM, hflag, setErrType, kindOf]

theorem serveWebsocketTLSM_habort (o : Oracle) (ctx : Ctx) :
    habortProp o (serveWebsocketTLSM o ctx) := by
  intro s hflag hmem
  rw [serveWebsocketTLSM_events] at hmem ⊢
  rw [List.mem_singleton] at hmem
  subst hmem
  simp only [delegateAborts] at hflag
  constructor
  · intro t ht
    rw [List.mem_singleton] at ht
    subst ht
    exact le_refl _
  · simp [serveWebsocketTLSM, hflag, setErrType, kindOf]

theorem forwardTunnelM_finish_not_mem (o : Oracle) (ctx : Ctx) :
    DEvent.finish ∉ (forwardTunnelM o ctx).events := by
  unfold forwardTunnelM
  repeat' split
  all_goals simp

theorem forwardTunnelM_habort (o : Oracle) (ctx : Ctx) :
    habortProp o (forwardTunnelM o ctx) := by
  intro s hflag hmem
  unfold forwardTunnelM at hmem ⊢
  repeat' split at hmem
  all_goals cases s
  all_goals simp_all [delegateAborts, kindOf, rank, setErrType]

theorem doRequestM_events_cases (o : Oracle) (ctx : Ctx) (cc : Nat)
    (k : Ctx → DoRespArg → KOut) :
    (doRequestM o ctx cc k).events = [] ∨
    (doRequestM o ctx cc k).events = [DEvent.beforeRequest] ∨
    (doRequestM o ctx cc k).events = [DEvent.beforeRequest, DEvent.parentProxy] ∨
    (doRequestM o ctx cc k).events =
      [DEvent.beforeRequest, DEvent.parentProxy, DEvent.beforeResponse] ∨
    (∃ c2 a, (doRequestM o ctx cc k).events =
      [DEvent.beforeRequest, DEvent.parentProxy, DEvent.beforeResponse] ++
        (k c2 a).events) := by
  unfold doRequestM
  repeat' split
  all_goals first
  | exact Or.inr (Or.inr (Or.inr (Or.inr ⟨_, _, rfl⟩)))
  | simp

theorem doRequestM_finish_not_mem (o : Oracle) (ctx : Ctx) (cc : Nat)
    (k : Ctx → DoRespArg → KOut) (hk : contOK k) :
    DEvent.finish ∉ (doRequestM o ctx cc k).events := by
  intro hmem
  rcases doRequestM_events_cases o ctx cc k with h | h | h | h | ⟨c2, a, h⟩ <;>
    rw [h] at hmem
  · simp at hmem
  · simp at hmem
  · simp at hmem
  · simp at hmem
  · have h2 : DEvent.finish ∈ (k c2 a).events := by simpa using hmem
    exact absurd (hk _ _ _ h2) (by decide)

theorem doRequestM_habort (o : Oracle) (ctx : Ctx) (cc : Nat)
    (k : Ctx → DoRespArg → KOut) (hk : contOK k) :
    habortProp o (doRequestM o ctx cc k) := by
  intro s hflag hmem
  unfold doRequestM at hmem ⊢
  by_cases h1 : cc > 1
  · rw [if_pos h1] at hmem
    simp at hmem
  · rw [if_neg h1] at hmem ⊢
    by_cases h2 : o.beforeRequestAbort = true
    · rw [if_pos h2] at hmem ⊢
      have hs : s = DEvent.beforeRequest := by simpa using hmem
      subst hs
      refine ⟨?_, by simp [setErrType, kindOf]⟩
      intro t ht
      have htt : t = DEvent.beforeRequest := by simpa using ht
      subst htt
      exact le_refl _
    · rw [if_neg h2] at hmem ⊢
      by_cases h3 : o.parentProxyAbort = true
      · rw [if_pos h3] at hmem ⊢
        have hs : s = DEvent.beforeRequest ∨ s = DEvent.parentProxy := by
          simpa using hmem
        rcases hs with rfl | rfl
        · simp only [delegateAborts] at hflag
          exact absurd hflag h2
        · refine ⟨?_, by simp [setErrType, kindOf]⟩
          intro t ht
          have htt : t = DEvent.beforeRequest ∨ t = DEvent.parentProxy := by
            simpa using ht
          rcases htt with rfl | rfl <;> simp [rank]
      · rw [if_neg h3] at hmem ⊢
        by_cases h4 : o.beforeResponseAbort = true
        · rw [if_pos h4] at hmem ⊢
          have hs : s = DEvent.beforeRequest ∨ s = DEvent.parentProxy ∨
              s = DEvent.beforeResponse := by
            simpa using hmem
          rcases hs with rfl | rfl | rfl
          · simp only [delegateAborts] at hflag
            exact absurd hflag h2
          · simp only [delegateAborts] at hflag
            exact absurd hflag h3
          · refine ⟨?_, by simp [setErrType, kindOf]⟩
            intro t ht
            have htt : t = DEvent.beforeRequest ∨ t = DEvent.parentProxy ∨
                t = DEvent.beforeResponse := by
              simpa using ht
            rcases htt with rfl | rfl | rfl <;> simp [rank]
        · rw [if_neg h4] at hmem
          simp only [List.mem_append, List.mem_cons, List.not_mem_nil,
            or_false] at hmem
          rcases hmem with (hs | hs | hs) | hks
          · subst hs
            simp only [delegateAborts] at hflag
            exact absurd hflag h2
          · subst hs
            simp only [delegateAborts] at hflag
            exact absurd hflag h3
          · subst hs
            simp only [delegateAborts] at hflag
            exact absurd hflag h4
          · have hds := hk _ _ s hks
            subst hds
            simp only [delegateAborts] at hflag
            simp at hflag

theorem forwardHTTPM_finish_not_mem (o : Oracle) (ctx : Ctx) :
    DEvent.finish ∉ (forwardHTTPM o ctx).events := by
  unfold forwardHTTPM
  exact doRequestM_finish_not_mem o _ 0 (kHTTP o) (kHTTP_contOK o)

theorem forwardHTTPM_habort (o : Oracle) (ctx : Ctx) :
    habortProp o (forwardHTTPM o ctx) := by
  unfold forwardHTTPM
  exact doRequestM_habort o _ 0 (kHTTP o) (kHTTP_contOK o)

theorem forwardHTTPSM_cases (o : Oracle) (ctx : Ctx) :
    (forwardHTTPSM o ctx).events = [] ∨
    ∃ c2 r, forwardHTTPSM o ctx = forwardHTTPSInnerM o c2 r := by
  unfold forwardHTTPSM
  repeat' split
  all_goals first
  | exact Or.inr ⟨_, _, rfl⟩
  | simp

theorem forwardHTTPSInnerM_finish_not_mem (o : Oracle) (c2 : Ctx) (r : Request) :
    DEvent.finish ∉ (forwardHTTPSInnerM o c2 r).events := by
  unfold forwardHTTPSInnerM
  exact doRequestM_finish_not_mem o _ 1 (kHTTPS o) (kHTTPS_contOK o)

theorem forwardHTTPSM_finish_not_mem (o : Oracle) (ctx : Ctx) :
    DEvent.finish ∉ (forwardHTTPSM o ctx).events := by
  rcases forwardHTTPSM_cases o ctx with h | ⟨c2, r, h⟩ <;> rw [h]
  · simp
  · exact forwardHTTPSInnerM_finish_not_mem o c2 r

/-- Wrapping a run in the deferred `CloseNetConn` and extra client chunks
preserves the abort property (events are unchanged; `closeNet` keeps the
error kind). -/
theorem habortProp_wrap (o : Oracle) (r : RunResult) (cw : List Chunk)
    (h : habortProp o r) :
    habortProp o { r with ctx := closeNet r.ctx, clientWrites := cw } := by
  intro s hflag hmem
  have hd := h s hflag hmem
  exact ⟨hd.1, by simpa using hd.2⟩

theorem forwardHTTPSInnerM_habort (o : Oracle) (c2 : Ctx) (r : Request) :
    habortProp o (forwardHTTPSInnerM o c2 r) := by
  unfold forwardHTTPSInnerM
  exact habortProp_wrap o _ _ (doRequestM_habort o _ 1 (kHTTPS o) (kHTTPS_contOK o))

theorem forwardHTTPSM_habort (o : Oracle) (ctx : Ctx) :
    habortProp o (forwardHTTPSM o ctx) := by
  rcases forwardHTTPSM_cases o ctx with h | ⟨c2, r, h⟩
  · intro s hflag hmem
    rw [h] at hmem
    simp at hmem
  · rw [h]
    exact forwardHTTPSInnerM_habort o c2 r

/-- Assembling one full `ServeHTTP` run in the no-pre-abort case. -/
theorem assembled_props (o : Oracle) (hre : List DEvent) (hctx : Ctx)
    (hfin : DEvent.finish ∉ hre)
    (habort : ∀ s, delegateAborts o s = true → s ∈ hre →
      (∀ t ∈ hre, rank t ≤ rank s) ∧ hctx.errType = some (kindOf s))
    (hc : o.connectAbort = false) (ha : o.authAbort = false) :
    ([DEvent.connect, DEvent.auth] ++ hre ++ [DEvent.finish]).count DEvent.finish = 1 ∧
    ([DEvent.connect, DEvent.auth] ++ hre ++ [DEvent.finish]).getLast? =
       some DEvent.finish ∧
    ∀ s, delegateAborts o s = true →
      s ∈ ([DEvent.connect, DEvent.auth] ++ hre ++ [DEvent.finish]) →
      ((∀ t ∈ ([DEvent.connect, DEvent.auth] ++ hre ++ [DEvent.finish]),
          rank t ≤ rank s ∨ t = DEvent.finish) ∧
       hctx.errType = some (kindOf s)) := by
  refine ⟨?_, ?_, ?_⟩
  · rw [List.count_append, List.count_append]
    rw [List.count_eq_zero.mpr hfin]
    rfl
  · rw [List.getLast?_concat]
  · intro s hflag hmem
    have hs2 : s ∈ hre := by
      rcases List.mem_append.mp hmem with h1 | h1
      · rcases List.mem_append.mp h1 with h2 | h2
        · rcases List.mem_cons.mp h2 with rfl | h3
          · simp only [delegateAborts] at hflag
            rw [hflag] at hc
            cases hc
          · rcases List.mem_cons.mp h3 with rfl | h4
            · simp only [delegateAborts] at hflag
              rw [hflag] at ha
              cases ha
            · exact absurd h4 (List.not_mem_nil s)
        · exact h2
      · rcases List.mem_cons.mp h1 with rfl | h2
        · simp only [delegateAborts] at hflag
          cases hflag
        · exact absurd h2 (List.not_mem_nil s)
    have hha := habort s hflag hs2
    have hrs : 2 ≤ rank s := by
      cases s
      · simp only [delegateAborts] at hflag
        rw [hflag] at hc
        cases hc
      · simp only [delegateAborts] at hflag
        rw [hflag] at ha
        cases ha
      · exact le_refl _
      · decide
      · decide
      · decide
      · decide
    refine ⟨?_, hha.2⟩
    intro t ht
    rcases List.mem_append.mp ht with h1 | h1
    · rcases List.mem_append.mp h1 with h2 | h2
      · rcases List.mem_cons.mp h2 with rfl | h3
        · exact Or.inl (Nat.zero_le _)
        · rcases List.mem_cons.mp h3 with rfl | h4
          · exact Or.inl (le_trans (by decide) hrs)
          · exact absurd h4 (List.not_mem_nil t)
      · exact Or.inl (hha.1 t h2)
    · rcases List.mem_cons.mp h1 with rfl | h2
      · exact Or.inr rfl
      · exact absurd h2 (List.not_mem_nil t)

/-- C3.  For every inbound request the delegate's `Finish` runs exactly once
and last; and whenever a delegate callback of an abort-checked stage sets
`abort`, no delegate callback of a later stage runs (except `Finish`) and the
error kind matching the aborting stage (`ConnectFail`, `AuthFail`,
`BeforeRequestFail`, `ParentProxyFail` or `BeforeResponseFail`) is recorded
on the context. -/
theorem serveHTTP_delegate_discipline (o : Oracle) (req : Request) :
    (serveHTTPM o req).events.count DEvent.finish = 1 ∧
    (serveHTTPM o req).events.getLast? = some DEvent.finish ∧
    (∀ s, delegateAborts o s = true → s ∈ (serveHTTPM o req).events →
      ((∀ t ∈ (serveHTTPM o req).events, rank t ≤ rank s ∨ t = DEvent.finish) ∧
       (serveHTTPM o req).ctx.errType = some (kindOf s))) := by
  simp only [serveHTTPM]
  by_cases hc : o.connectAbort = true
  · rw [if_pos hc]
    refine ⟨rfl, rfl, ?_⟩
    intro s hflag hmem
    rcases List.mem_cons.mp hmem with rfl | h1
    · refine ⟨?_, rfl⟩
      intro t ht
      rcases List.mem_cons.mp ht with rfl | h2
      · exact Or.inl (le_refl _)
      · rcases List.mem_cons.mp h2 with rfl | h3
        · exact Or.inr rfl
        · exact absurd h3 (List.not_mem_nil t)
    · rcases List.mem_cons.mp h1 with rfl | h2
      · simp only [delegateAborts] at hflag
        cases hflag
      · exact absurd h2 (List.not_mem_nil s)
  · rw [if_neg hc]
    by_cases ha : o.authAbort = true
    · rw [if_pos ha]
      refine ⟨rfl, rfl, ?_⟩
      intro s hflag hmem
      rcases List.mem_cons.mp hmem with rfl | h1
      · simp only [delegateAborts] at hflag
        exact absurd hflag hc
      · rcases List.mem_cons.mp h1 with rfl | h2
        · refine ⟨?_, rfl⟩
          intro t ht
          rcases List.mem_cons.mp ht with rfl | h3
          · exact Or.inl (Nat.zero_le _)
          · rcases List.mem_cons.mp h3 with rfl | h4
            · exact Or.inl (le_refl _)
            · rcases List.mem_cons.mp h4 with rfl | h5
              · exact Or.inr rfl
              · exact absurd h5 (List.not_mem_nil t)
        · rcases List.mem_cons.mp h2 with rfl | h3
          · simp only [delegateAborts] at hflag
            cases hflag
          · exact absurd h3 (List.not_mem_nil s)
    · have hcf : o.connectAbort = false := by simpa using hc
      have haf : o.authAbort = false := by simpa using ha
      rw [if_neg ha]
      rcases hd : dispatchM (if req.urlHost = "" then { req with urlHost := req.host } else req) with
        _ | _ | _ | _ | _ <;> simp only [hd]
      · exact assembled_props o _ _
          (by rw [serveWebsocketTLSM_events]; decide)
          (serveWebsocketTLSM_habort o _) hcf haf
      · exact assembled_props o _ _
          (forwardHTTPSM_finish_not_mem o _) (forwardHTTPSM_habort o _) hcf haf
      · exact assembled_props o _ _
          (forwardTunnelM_finish_not_mem o _) (forwardTunnelM_habort o _) hcf haf
      · exact assembled_props o _ _
          (by rw [serveWebsocketM_events]; decide)
          (serveWebsocketM_habort o _) hcf haf
      · exact assembled_props o _ _
          (forwardHTTPM_finish_not_mem o _) (forwardHTTPM_habort o _) hcf haf

theorem serveHTTP_delegate_discipline_witness :
    (serveHTTPM { authAbort := true } reqW).events.count DEvent.finish = 1 ∧
    (serveHTTPM { authAbort := true } reqW).ctx.errType = some ErrType.AuthFail := by
  have h := serveHTTP_delegate_discipline { authAbort := true } reqW
  exact ⟨h.1, (h.2.2 .auth rfl (by decide)).2⟩

/-! ## C7: the plain WebSocket forwarder closes the client early -/

/-- C7 (code bug).  `serveWebsocket` closes the hijacked client connection
immediately after the hijack (`clientConn.Close()` at line 346 is not
deferred), so the handshake response write to the client always fails: for
every oracle and context, no handshake response is ever relayed to the
client and the byte pump is never started, contradicting the claimed
behaviour (relay of the 101 response followed by a full-duplex pipe). -/
theorem websocket_pump_unreachable (o : Oracle) (ctx : Ctx) :
    (serveWebsocketM o ctx).pumpRan = false ∧
    Chunk.httpResponse ∉ (serveWebsocketM o ctx).clientWrites ∧
    ((serveWebsocketM {} ctxW).ctx.errType = some ErrType.HTTPWebsocketHandshakeFail) := by
  refine ⟨?_, ?_, by decide⟩ <;>
    · unfold serveWebsocketM
      repeat' split
      all_goals simp_all

end Proxychannel
